import Mathlib

/-!
Permission-gated map chaincode (`chaincode/src/map/map.go`).

A shallow embedding of the chaincode's `Init`, `checkPermission` and `Invoke`
over an explicit model of the chaincode stub (state store, caller credential,
event slot and a schedule of collaborator failures), followed by theorems about
the permission model and the request/grant workflow.
-/

namespace MapChaincode

/-! ## Go values -/

/-- A byte. -/
abbrev Byte := Fin 256

/-- A Go `string`: an immutable sequence of bytes. -/
abbrev GoString := List Byte

/-- A Go `[]byte`: `none` is the `nil` slice, `some bs` a non-nil slice.
`string(b[:])` of either is the sequence of its bytes. -/
abbrev Bytes := Option (List Byte)

/-- The bytes of an ASCII literal of the source. -/
def str (s : String) : GoString := s.toList.map (fun c => Fin.ofNat c.toNat)

/-- Conversion `string(b[:])`: the `nil` slice converts to the empty string. -/
def toGoString (b : Bytes) : GoString := b.getD []

/-! ## `net/url` and `strings` (Go standard library) -/

/-- Go `net/url.shouldEscape(c, encodePathSegment)`: alphanumerics and the marks
`-_.~` are kept; of the reserved characters `$&+,/:;=?@` only `/ ; , ?` are
escaped in a path segment; every other byte is escaped. -/
def shouldEscape (c : Byte) : Bool :=
  -- 'a'..'z', 'A'..'Z', '0'..'9'
  if (97 ≤ c.val && c.val ≤ 122) || (65 ≤ c.val && c.val ≤ 90) || (48 ≤ c.val && c.val ≤ 57) then
    false
  -- '-', '_', '.', '~'
  else if c.val = 45 || c.val = 95 || c.val = 46 || c.val = 126 then
    false
  -- '$', '&', '+', ',', '/', ':', ';', '=', '?', '@'
  else if c.val = 36 || c.val = 38 || c.val = 43 || c.val = 44 || c.val = 47 || c.val = 58
      || c.val = 59 || c.val = 61 || c.val = 63 || c.val = 64 then
    -- case encodePathSegment: c == '/' || c == ';' || c == ',' || c == '?'
    c.val = 47 || c.val = 59 || c.val = 44 || c.val = 63
  else
    true

/-- Go `upperhex[n]` for the table `"0123456789ABCDEF"`. -/
def upperhex (n : Nat) : Byte := (str "0123456789ABCDEF").getD n 0

/-- The bytes one input byte contributes to the output of `net/url.escape`. -/
def escapeByte (c : Byte) : List Byte :=
  if shouldEscape c then [37, upperhex (c.val / 16), upperhex (c.val % 16)] else [c]

/-- Go `net/url.escape(s, encodePathSegment)`: the input is returned as is when
no byte has to be escaped, otherwise every byte to escape becomes `%XX`. -/
def escape (s : GoString) : GoString :=
  let hexCount := (s.filter shouldEscape).length
  if hexCount = 0 then s else s.flatMap escapeByte

/-- Go `url.PathEscape`. -/
def PathEscape (s : GoString) : GoString := escape s

/-- Go `strings.HasPrefix`. -/
def HasPrefix : GoString → GoString → Bool
  | _, [] => true
  | [], _ :: _ => false
  | c :: s, d :: p => c = d && HasPrefix s p

/-- Go `strings.Contains(s, substr)`: `substr` occurs within `s`. -/
def Contains : GoString → GoString → Bool
  | [], substr => substr.isEmpty
  | c :: s, substr => HasPrefix (c :: s) substr || Contains s substr

/-! ## The chaincode stub

`shim.ChaincodeStubInterface` belongs to the hosting framework. It is modelled as
an explicit state: the state store is a map from keys to `[]byte` values in which
a missing key reads as `nil`, the event slot holds the event set by the
transaction, and `faults` schedules which of the successive stub calls return an
error (the `n`-th call made on the stub fails with `e` when `faults n = some e`).
This covers every deterministic failure behaviour of the collaborator, including
a store that rejects particular keys. -/

/-- Modelled from the spec: the `Message` type passed to `proto.Marshal` is
generated code that is not among the sources; the spec describes it as a
structured payload carrying one signal string. The event slot keeps the message
itself as the payload. -/
structure Message where
  Payload : GoString
deriving DecidableEq

/-- The state of the chaincode stub during one transaction. -/
structure Stub where
  /-- What `GetCreator` returns: the caller's credential bytes. -/
  creator : Bytes
  /-- The operation name returned by `GetFunctionAndParameters`. -/
  function : GoString
  /-- The arguments returned by `GetFunctionAndParameters`. -/
  args : List GoString
  /-- The state store: `none` is a key that reads as `nil`. -/
  store : GoString → Bytes
  /-- The event set on the transaction, if any. -/
  event : Option (GoString × Message)
  /-- The failure schedule of the stub calls. -/
  faults : Nat → Option String
  /-- The number of stub calls made so far. -/
  calls : Nat

/-- The outcome scheduled for the next stub call. -/
def Stub.fault (s : Stub) : Option String := s.faults s.calls

/-- The stub after one more call has been made on it. -/
def Stub.step (s : Stub) : Stub := { s with calls := s.calls + 1 }

/-- Stub call `GetCreator() ([]byte, error)`. -/
def GetCreator (s : Stub) : Except String Bytes × Stub :=
  match s.fault with
  | some e => (.error e, s.step)
  | none => (.ok s.creator, s.step)

/-- Stub call `GetState(key) ([]byte, error)`. -/
def GetState (s : Stub) (key : GoString) : Except String Bytes × Stub :=
  match s.fault with
  | some e => (.error e, s.step)
  | none => (.ok (s.store key), s.step)

/-- Stub call `PutState(key, value) error`; `none` is the `nil` error. -/
def PutState (s : Stub) (key : GoString) (value : Bytes) : Option String × Stub :=
  match s.fault with
  | some e => (some e, s.step)
  | none => (none, { s.step with store := fun k => if k = key then value else s.store k })

/-- Stub call `DelState(key) error`. -/
def DelState (s : Stub) (key : GoString) : Option String × Stub :=
  match s.fault with
  | some e => (some e, s.step)
  | none => (none, { s.step with store := fun k => if k = key then none else s.store k })

/-- Stub call `SetEvent(name, payload) error`. -/
def SetEvent (s : Stub) (name : GoString) (payload : Message) : Option String × Stub :=
  match s.fault with
  | some e => (some e, s.step)
  | none => (none, { s.step with event := some (name, payload) })

/-- A `pb.Response`: `shim.Success(payload)` or `shim.Error(msg)`. -/
inductive Response where
  | Success (payload : Bytes)
  | Error (msg : String)
deriving DecidableEq

/-- Whether a response is an error response. -/
def Response.isError : Response → Bool
  | .Success _ => false
  | .Error _ => true

/-! ## The chaincode -/

/-- Function `SimpleChaincode.Init` (map.go, lines 43-65). -/
def Init (s : Stub) : Response × Stub :=
  match GetCreator s with
  | (.error e, s1) => (.Error ("Failed to get creator. Error: " ++ e), s1)
  | (.ok creator, s1) =>
    let creatorString := PathEscape (toGoString creator)
    match PutState s1 creatorString (some (str "['read','write','admin']")) with
    | (some e, s2) => (.Error ("Failed to put creator string. Error: " ++ e), s2)
    | (none, s2) =>
      match GetState s2 creatorString with
      | (.error e, s3) => (.Error ("Failed to get creator state. Error: " ++ e), s3)
      | (.ok _, s3) => (.Success none, s3)

/-- Function `checkPermission` (map.go, lines 67-81). The error of `GetState` is ignored
by the source; a failing `GetState` returns the `nil` value beside its error. -/
def checkPermission (s : Stub) (permission : GoString) : Bool × Stub :=
  match GetCreator s with
  | (.error _, s1) => (false, s1)
  | (.ok creator, s1) =>
    let creatorString := PathEscape (toGoString creator)
    match GetState s1 creatorString with
    | (.error _, s2) => (false, s2)
    | (.ok state, s2) => (state != none && Contains (toGoString state) permission, s2)

/-- Function `Invoke`, case `"putPrivate"` (map.go, lines 93-118). -/
def putPrivate (s : Stub) (args : List GoString) : Response × Stub :=
  let chk := checkPermission s (str "write")
  if !chk.1 then (.Error "Forbidden", chk.2)
  else if args.length < 2 then
    (.Error "put operation must include two arguments, a key and value", chk.2)
  else
    let key := args.getD 0 []
    let value := args.getD 1 []
    match GetState chk.2 key with
    | (.error e, s2) => (.Error ("put operation failed. Error updating state: " ++ e), s2)
    | (.ok _, s2) =>
      match PutState s2 key (some value) with
      | (some e, s3) => (.Error ("put operation failed. Error updating state: " ++ e), s3)
      | (none, s3) => (.Success none, s3)

/-- Function `Invoke`, case `"getPrivate"` (map.go, lines 120-135). -/
def getPrivate (s : Stub) (args : List GoString) : Response × Stub :=
  let chk := checkPermission s (str "read")
  if !chk.1 then (.Error "Forbidden", chk.2)
  else if args.length < 1 then
    (.Error "get operation must include one argument, a key", chk.2)
  else
    let key := args.getD 0 []
    match GetState chk.2 key with
    | (.error e, s2) => (.Error ("get operation failed. Error accessing state: " ++ e), s2)
    | (.ok value, s2) => (.Success value, s2)

/-- Function `Invoke`, case `"permissionRequest"` (map.go, lines 137-162). The message of
the already-pending error formats the `nil` error with `%s`. -/
def permissionRequest (s : Stub) : Response × Stub :=
  let key := str "permissionRequest"
  match GetState s key with
  | (.error e, s1) =>
    (.Error ("get permission request operation failed. Error accessing state: " ++ e), s1)
  | (.ok value, s1) =>
    if value != none then
      (.Error "permission request allready pending. Error accessing state: %!s(<nil>)", s1)
    else
      match GetCreator s1 with
      | (.error e, s2) => (.Error ("Failed to get creator. Error: " ++ e), s2)
      | (.ok creator, s2) =>
        match PutState s2 key creator with
        | (some e, s3) => (.Error ("put operation failed. Error updating state: " ++ e), s3)
        | (none, s3) => (.Success none, s3)

/-- Function `Invoke`, case `"addReadWritePermission"` (map.go, lines 164-210).
The call `proto.Marshal` of the message holding the ASCII literal does not
fail; the event slot keeps the message as the payload. -/
def addReadWritePermission (s : Stub) : Response × Stub :=
  let chk := checkPermission s (str "admin")
  if !chk.1 then (.Error "Forbidden", chk.2)
  else
    match GetState chk.2 (str "permissionRequest") with
    | (.error e, s2) =>
      (.Error ("get permission request operation failed. Error accessing state: " ++ e), s2)
    | (.ok userCert, s2) =>
      let key := toGoString userCert
      match PutState s2 key (some (str "['read','write']")) with
      | (some e, s3) => (.Error ("put operation failed. Error updating state: " ++ e), s3)
      | (none, s3) =>
        let message : Message := { Payload := str "ReadWritePermission" }
        match SetEvent s3 key message with
        | (some e, s4) =>
          (.Error ("put operation failed. Error emiting state update event with compositeKey: "
            ++ e), s4)
        | (none, s4) =>
          match PutState s4 (str "lastGrantedUser") userCert with
          | (some e, s5) => (.Error ("put operation failed. Error updating state: " ++ e), s5)
          | (none, s5) =>
            match DelState s5 (str "permissionRequest") with
            | (some e, s6) => (.Error ("remove operation failed. Error updating state: " ++ e), s6)
            | (none, s6) => (.Success none, s6)

/-- Function `Invoke`, case `"addReadPermission"` (map.go, lines 212-258).
The call `proto.Marshal` of the message holding the ASCII literal does not
fail; the event slot keeps the message as the payload. -/
def addReadPermission (s : Stub) : Response × Stub :=
  let chk := checkPermission s (str "admin")
  if !chk.1 then (.Error "Forbidden", chk.2)
  else
    match GetState chk.2 (str "permissionRequest") with
    | (.error e, s2) =>
      (.Error ("get permission request operation failed. Error accessing state: " ++ e), s2)
    | (.ok userCert, s2) =>
      let key := toGoString userCert
      match PutState s2 key (some (str "['read']")) with
      | (some e, s3) => (.Error ("put operation failed. Error updating state: " ++ e), s3)
      | (none, s3) =>
        let message : Message := { Payload := str "ReadPermission" }
        match SetEvent s3 key message with
        | (some e, s4) =>
          (.Error ("put operation failed. Error emiting state update event with compositeKey: "
            ++ e), s4)
        | (none, s4) =>
          match PutState s4 (str "lastGrantedUser") userCert with
          | (some e, s5) => (.Error ("put operation failed. Error updating state: " ++ e), s5)
          | (none, s5) =>
            match DelState s5 (str "permissionRequest") with
            | (some e, s6) => (.Error ("remove operation failed. Error updating state: " ++ e), s6)
            | (none, s6) => (.Success none, s6)

/-- Function `SimpleChaincode.Invoke` (map.go, lines 86-263): dispatch on the operation
name returned by `GetFunctionAndParameters`. -/
def Invoke (s : Stub) : Response × Stub :=
  let function := s.function
  let args := s.args
  if function = str "putPrivate" then putPrivate s args
  else if function = str "getPrivate" then getPrivate s args
  else if function = str "permissionRequest" then permissionRequest s
  else if function = str "addReadWritePermission" then addReadWritePermission s
  else if function = str "addReadPermission" then addReadPermission s
  else (.Success (some (str "Unsupported operation")), s)

/-! ## Transactions

Helpers to state properties of sequences of calls. -/

/-- A schedule in which no stub call fails. -/
def noFaults : Nat → Option String := fun _ => none

/-- The stub of a new transaction on store `st` by the caller with credential
`creator`, calling operation `function` with `args`, under schedule `faults`. -/
def txn (st : GoString → Bytes) (creator : Bytes) (function : GoString)
    (args : List GoString) (faults : Nat → Option String) : Stub :=
  { creator := creator, function := function, args := args, store := st, event := none,
    faults := faults, calls := 0 }

/-- The result of `checkPermission` for the caller with credential `creator` on
store `st` when the stub calls do not fail. -/
def hasPermission (st : GoString → Bytes) (creator : Bytes) (permission : GoString) : Bool :=
  (checkPermission (txn st creator [] [] noFaults) permission).1

/-- The store with no entry. -/
def emptyStore : GoString → Bytes := fun _ => none

/-! ## Sample transactions -/

/-- A deployer credential. -/
def deployer : GoString := str "deployer"

/-- A requester credential holding a byte that `url.PathEscape` escapes. -/
def alice : GoString := str "alice smith"

/-- A second user credential. -/
def bob : GoString := str "bob"

/-- The store after `Init` by `deployer` on the empty store. -/
def seeded : GoString → Bytes := (Init (txn emptyStore (some deployer) [] [] noFaults)).2.store

/-- The store `seeded` with a pending request of `alice`. -/
def pending : GoString → Bytes :=
  (Invoke (txn seeded (some alice) (str "permissionRequest") [] noFaults)).2.store

/-- The store `pending` after `deployer` has granted with `addReadWritePermission`. -/
def granted : GoString → Bytes :=
  (Invoke (txn pending (some deployer) (str "addReadWritePermission") [] noFaults)).2.store

/-- The store `seeded` after `bob` has requested permission and `deployer` has
granted it with `addReadWritePermission`. -/
def grantedBob : GoString → Bytes :=
  (Invoke (txn (Invoke (txn seeded (some bob) (str "permissionRequest") [] noFaults)).2.store
    (some deployer) (str "addReadWritePermission") [] noFaults)).2.store

/-- A schedule for a store that rejects the write to the empty key: the fourth
stub call of a grant operation, its first `PutState`, fails. -/
def rejectEmptyKey : Nat → Option String :=
  fun n => if n = 3 then some "key must not be an empty string" else none

/-- A schedule in which the seventh stub call of a grant operation, its
`DelState`, fails. -/
def deleteFails : Nat → Option String :=
  fun n => if n = 6 then some "ledger unavailable" else none

/-! ## Identity canonicalization -/

theorem escape_eq_flatMap (s : GoString) : escape s = s.flatMap escapeByte := by
  unfold escape
  simp only
  split
  · rename_i h
    induction s with
    | nil => rfl
    | cons c t ih =>
      have hc : shouldEscape c = false := by
        cases hs : shouldEscape c with
        | false => rfl
        | true => simp [List.filter_cons, hs] at h
      have ht : (List.filter shouldEscape t).length = 0 := by
        simpa [List.filter_cons, hc] using h
      simp only [List.flatMap_cons, escapeByte, hc]
      simpa using ih ht
  · rfl

theorem shouldEscape_percent (c : Byte) (h : shouldEscape c = false) : c ≠ 37 := by
  intro hc
  subst hc
  revert h
  decide

theorem upperhex_injective (a b : Fin 16) (h : upperhex a.val = upperhex b.val) : a = b := by
  revert a b
  decide

theorem byte_of_nibbles (c d : Byte) (h1 : upperhex (c.val / 16) = upperhex (d.val / 16))
    (h2 : upperhex (c.val % 16) = upperhex (d.val % 16)) : c = d := by
  have hc := c.isLt
  have hd := d.isLt
  have e1 := upperhex_injective ⟨c.val / 16, by omega⟩ ⟨d.val / 16, by omega⟩ h1
  have e2 := upperhex_injective ⟨c.val % 16, by omega⟩ ⟨d.val % 16, by omega⟩ h2
  simp only [Fin.mk.injEq] at e1 e2
  apply Fin.ext
  omega

theorem escapeByte_append_inj (c d : Byte) (x y : List Byte)
    (h : escapeByte c ++ x = escapeByte d ++ y) : c = d ∧ x = y := by
  unfold escapeByte at h
  cases hc : shouldEscape c <;> cases hd : shouldEscape d
  · simp only [hc, hd, Bool.false_eq_true, if_false, List.cons_append, List.nil_append,
      List.cons.injEq] at h
    exact h
  · simp only [hc, hd, Bool.false_eq_true, if_false, if_true, List.cons_append,
      List.nil_append, List.cons.injEq] at h
    exact absurd h.1 (shouldEscape_percent c hc)
  · simp only [hc, hd, Bool.false_eq_true, if_false, if_true, List.cons_append,
      List.nil_append, List.cons.injEq] at h
    exact absurd h.1.symm (shouldEscape_percent d hd)
  · simp only [hc, hd, if_true, List.cons_append, List.nil_append, List.cons.injEq,
      true_and] at h
    exact ⟨byte_of_nibbles c d h.1 h.2.1, h.2.2⟩

theorem escapeByte_ne_nil (c : Byte) : escapeByte c ≠ [] := by
  unfold escapeByte
  split <;> simp

theorem flatMap_escapeByte_injective (c1 c2 : GoString)
    (h : c1.flatMap escapeByte = c2.flatMap escapeByte) : c1 = c2 := by
  induction c1 generalizing c2 with
  | nil =>
    cases c2 with
    | nil => rfl
    | cons d t =>
      simp only [List.flatMap_nil, List.flatMap_cons] at h
      exact absurd (List.append_eq_nil.mp h.symm).1 (escapeByte_ne_nil d)
  | cons c t ih =>
    cases c2 with
    | nil =>
      simp only [List.flatMap_nil, List.flatMap_cons] at h
      exact absurd (List.append_eq_nil.mp h).1 (escapeByte_ne_nil c)
    | cons d u =>
      simp only [List.flatMap_cons] at h
      obtain ⟨hcd, htu⟩ := escapeByte_append_inj c d _ _ h
      rw [hcd, ih u htu]

theorem PathEscape_inj (c1 c2 : GoString) (h : PathEscape c1 = PathEscape c2) : c1 = c2 := by
  unfold PathEscape at h
  rw [escape_eq_flatMap, escape_eq_flatMap] at h
  exact flatMap_escapeByte_injective c1 c2 h

/-- C9: identity canonicalization is injective: two credential byte-sequences
with the same `url.PathEscape` are the same byte-sequence. -/
theorem canonicalization_injective (c1 c2 : GoString)
    (h : PathEscape c1 = PathEscape c2) : c1 = c2 :=
  PathEscape_inj c1 c2 h

theorem canonicalization_injective_witness :
    PathEscape alice = PathEscape (str "alice smith") ∧ alice = str "alice smith" :=
  ⟨rfl, canonicalization_injective alice (str "alice smith") rfl⟩

/-- C10, counterexample: the non-empty credentials "permissionRequest" and
"lastGrantedUser" canonicalize to the reserved keys themselves. -/
theorem reserved_key_collision :
    str "permissionRequest" ≠ [] ∧
      PathEscape (str "permissionRequest") = str "permissionRequest" ∧
      str "lastGrantedUser" ≠ [] ∧
      PathEscape (str "lastGrantedUser") = str "lastGrantedUser" := by
  decide

/-- C10, amended: for every credential other than the byte-sequences
"permissionRequest" and "lastGrantedUser" themselves, the canonicalized identity
differs from both reserved keys. -/
theorem identity_not_reserved (c : GoString) (h1 : c ≠ str "permissionRequest")
    (h2 : c ≠ str "lastGrantedUser") :
    PathEscape c ≠ str "permissionRequest" ∧ PathEscape c ≠ str "lastGrantedUser" := by
  have e1 : PathEscape (str "permissionRequest") = str "permissionRequest" := by decide
  have e2 : PathEscape (str "lastGrantedUser") = str "lastGrantedUser" := by decide
  exact ⟨fun he => h1 (PathEscape_inj _ _ (he.trans e1.symm)),
    fun he => h2 (PathEscape_inj _ _ (he.trans e2.symm))⟩

theorem identity_not_reserved_witness :
    alice ≠ str "permissionRequest" ∧ alice ≠ str "lastGrantedUser" ∧
      PathEscape alice ≠ str "permissionRequest" ∧ PathEscape alice ≠ str "lastGrantedUser" :=
  ⟨by decide, by decide, identity_not_reserved alice (by decide) (by decide)⟩

/-! ## Stub calls -/

theorem checkPermission_store (s : Stub) (p : GoString) :
    (checkPermission s p).2.store = s.store := by
  unfold checkPermission GetCreator GetState Stub.fault Stub.step
  rcases h0 : s.faults s.calls with _ | e0 <;>
  rcases h1 : s.faults (s.calls + 1) with _ | e1 <;> simp [h0, h1]

theorem checkPermission_event (s : Stub) (p : GoString) :
    (checkPermission s p).2.event = s.event := by
  unfold checkPermission GetCreator GetState Stub.fault Stub.step
  rcases h0 : s.faults s.calls with _ | e0 <;>
  rcases h1 : s.faults (s.calls + 1) with _ | e1 <;> simp [h0, h1]

theorem hasPermission_eq (st : GoString → Bytes) (c : Bytes) (p : GoString) :
    hasPermission st c p =
      (st (PathEscape (toGoString c)) != none &&
        Contains (toGoString (st (PathEscape (toGoString c)))) p) := rfl

/-! ## Dispatch -/

theorem Invoke_putPrivate (s : Stub) (h : s.function = str "putPrivate") :
    Invoke s = putPrivate s s.args := by
  unfold Invoke
  simp only [h, if_true]

theorem Invoke_getPrivate (s : Stub) (h : s.function = str "getPrivate") :
    Invoke s = getPrivate s s.args := by
  unfold Invoke
  simp only [h]
  rw [if_neg (by decide), if_pos trivial]

theorem Invoke_permissionRequest (s : Stub) (h : s.function = str "permissionRequest") :
    Invoke s = permissionRequest s := by
  unfold Invoke
  simp only [h]
  rw [if_neg (by decide), if_neg (by decide), if_pos trivial]

theorem Invoke_addReadWritePermission (s : Stub)
    (h : s.function = str "addReadWritePermission") : Invoke s = addReadWritePermission s := by
  unfold Invoke
  simp only [h]
  rw [if_neg (by decide), if_neg (by decide), if_neg (by decide), if_pos trivial]

theorem Invoke_addReadPermission (s : Stub) (h : s.function = str "addReadPermission") :
    Invoke s = addReadPermission s := by
  unfold Invoke
  simp only [h]
  rw [if_neg (by decide), if_neg (by decide), if_neg (by decide), if_neg (by decide), if_pos trivial]

theorem Invoke_unsupported (s : Stub) (h1 : s.function ≠ str "putPrivate")
    (h2 : s.function ≠ str "getPrivate") (h3 : s.function ≠ str "permissionRequest")
    (h4 : s.function ≠ str "addReadWritePermission")
    (h5 : s.function ≠ str "addReadPermission") :
    Invoke s = (.Success (some (str "Unsupported operation")), s) := by
  unfold Invoke
  simp only [h1, h2, h3, h4, h5, if_false]

/-! ## Effect of each operation on the store -/

theorem putPrivate_store (s : Stub) (args : List GoString) (k : GoString)
    (hk : args.head? ≠ some k) : (putPrivate s args).2.store k = s.store k := by
  unfold putPrivate checkPermission GetCreator GetState PutState Stub.fault Stub.step
  rcases args with _ | ⟨a, _ | ⟨b, rest⟩⟩ <;>
  rcases h0 : s.faults s.calls with _ | e0 <;>
  rcases h1 : s.faults (s.calls + 1) with _ | e1 <;>
  rcases h2 : s.faults (s.calls + 1 + 1) with _ | e2 <;>
  rcases h3 : s.faults (s.calls + 1 + 1 + 1) with _ | e3 <;>
  simp [h0, h1, h2, h3] <;> (repeat' split) <;>
  (simp_all; try exact fun hka => absurd hka.symm hk)

theorem getPrivate_store (s : Stub) (args : List GoString) :
    (getPrivate s args).2.store = s.store := by
  unfold getPrivate checkPermission GetCreator GetState Stub.fault Stub.step
  rcases h0 : s.faults s.calls with _ | e0 <;>
  rcases h1 : s.faults (s.calls + 1) with _ | e1 <;>
  rcases h2 : s.faults (s.calls + 1 + 1) with _ | e2 <;>
  simp [h0, h1, h2] <;> (repeat' split) <;> simp_all

theorem permissionRequest_store (s : Stub) (k : GoString)
    (hk : k ≠ str "permissionRequest") : (permissionRequest s).2.store k = s.store k := by
  unfold permissionRequest GetCreator GetState PutState Stub.fault Stub.step
  rcases h0 : s.faults s.calls with _ | e0 <;>
  rcases h1 : s.faults (s.calls + 1) with _ | e1 <;>
  rcases h2 : s.faults (s.calls + 1 + 1) with _ | e2 <;>
  simp [h0, h1, h2] <;> (repeat' split) <;> simp_all

theorem addReadWritePermission_store (s : Stub) (k : GoString)
    (hp : k ≠ str "permissionRequest") (hl : k ≠ str "lastGrantedUser") :
    (addReadWritePermission s).2.store k = s.store k ∨
      (addReadWritePermission s).2.store k = some (str "['read','write']") := by
  unfold addReadWritePermission checkPermission GetCreator GetState PutState DelState SetEvent
    Stub.fault Stub.step
  by_cases hk : k = toGoString (s.store (str "permissionRequest")) <;>
  rcases h0 : s.faults s.calls with _ | e0 <;>
  rcases h1 : s.faults (s.calls + 1) with _ | e1 <;>
  rcases h2 : s.faults (s.calls + 1 + 1) with _ | e2 <;>
  rcases h3 : s.faults (s.calls + 1 + 1 + 1) with _ | e3 <;>
  rcases h4 : s.faults (s.calls + 1 + 1 + 1 + 1) with _ | e4 <;>
  rcases h5 : s.faults (s.calls + 1 + 1 + 1 + 1 + 1) with _ | e5 <;>
  rcases h6 : s.faults (s.calls + 1 + 1 + 1 + 1 + 1 + 1) with _ | e6 <;>
  simp [h0, h1, h2, h3, h4, h5, h6] <;> (repeat' split) <;> simp_all

theorem addReadPermission_store (s : Stub) (k : GoString)
    (hp : k ≠ str "permissionRequest") (hl : k ≠ str "lastGrantedUser") :
    (addReadPermission s).2.store k = s.store k ∨
      (addReadPermission s).2.store k = some (str "['read']") := by
  unfold addReadPermission checkPermission GetCreator GetState PutState DelState SetEvent
    Stub.fault Stub.step
  by_cases hk : k = toGoString (s.store (str "permissionRequest")) <;>
  rcases h0 : s.faults s.calls with _ | e0 <;>
  rcases h1 : s.faults (s.calls + 1) with _ | e1 <;>
  rcases h2 : s.faults (s.calls + 1 + 1) with _ | e2 <;>
  rcases h3 : s.faults (s.calls + 1 + 1 + 1) with _ | e3 <;>
  rcases h4 : s.faults (s.calls + 1 + 1 + 1 + 1) with _ | e4 <;>
  rcases h5 : s.faults (s.calls + 1 + 1 + 1 + 1 + 1) with _ | e5 <;>
  rcases h6 : s.faults (s.calls + 1 + 1 + 1 + 1 + 1 + 1) with _ | e6 <;>
  simp [h0, h1, h2, h3, h4, h5, h6] <;> (repeat' split) <;> simp_all

/-! ## Permission checks -/

/-- C7: fail-closed permission check. When the store holds no entry under the
caller's canonicalized identity, or when the read of that entry returns an
error, `checkPermission` returns false for every label. -/
theorem checkPermission_fail_closed (s : Stub) (l : GoString)
    (h : s.store (PathEscape (toGoString s.creator)) = none ∨
      ∃ e, (GetState (GetCreator s).2 (PathEscape (toGoString s.creator))).1 = .error e) :
    (checkPermission s l).1 = false := by
  revert h
  unfold checkPermission GetCreator GetState Stub.fault Stub.step
  rcases h0 : s.faults s.calls with _ | e0 <;>
  rcases h1 : s.faults (s.calls + 1) with _ | e1 <;>
  simp [h0, h1]
  intro h
  simp [h]

theorem checkPermission_fail_closed_witness :
    (txn emptyStore (some alice) [] [] noFaults).store
        (PathEscape (toGoString (txn emptyStore (some alice) [] [] noFaults).creator)) = none ∧
      (checkPermission (txn emptyStore (some alice) [] [] noFaults) (str "read")).1 = false :=
  ⟨rfl, checkPermission_fail_closed (txn emptyStore (some alice) [] [] noFaults) (str "read")
    (Or.inl rfl)⟩

/-- C5: Forbidden is a no-op. When the caller lacks the label the operation
requires (write for putPrivate, read for getPrivate, admin for the two grant
operations), `Invoke` returns the error "Forbidden" and leaves the store and the
event slot as they were. -/
theorem forbidden_is_noop (s : Stub) (l : GoString)
    (hop : (s.function = str "putPrivate" ∧ l = str "write") ∨
      (s.function = str "getPrivate" ∧ l = str "read") ∨
      (s.function = str "addReadWritePermission" ∧ l = str "admin") ∨
      (s.function = str "addReadPermission" ∧ l = str "admin"))
    (hl : (checkPermission s l).1 = false) :
    (Invoke s).1 = .Error "Forbidden" ∧ (Invoke s).2.store = s.store ∧
      (Invoke s).2.event = s.event := by
  rcases hop with ⟨hf, rfl⟩ | ⟨hf, rfl⟩ | ⟨hf, rfl⟩ | ⟨hf, rfl⟩
  · rw [Invoke_putPrivate s hf]
    unfold putPrivate
    simp [hl, checkPermission_store, checkPermission_event]
  · rw [Invoke_getPrivate s hf]
    unfold getPrivate
    simp [hl, checkPermission_store, checkPermission_event]
  · rw [Invoke_addReadWritePermission s hf]
    unfold addReadWritePermission
    simp [hl, checkPermission_store, checkPermission_event]
  · rw [Invoke_addReadPermission s hf]
    unfold addReadPermission
    simp [hl, checkPermission_store, checkPermission_event]

theorem forbidden_is_noop_witness :
    (checkPermission (txn pending (some bob) (str "addReadWritePermission") [] noFaults)
        (str "admin")).1 = false ∧
      (Invoke (txn pending (some bob) (str "addReadWritePermission") [] noFaults)).1 =
        .Error "Forbidden" ∧
      (Invoke (txn pending (some bob) (str "addReadWritePermission") [] noFaults)).2.store =
        pending :=
  have h := forbidden_is_noop (txn pending (some bob) (str "addReadWritePermission") [] noFaults)
    (str "admin") (Or.inr (Or.inr (Or.inl ⟨rfl, rfl⟩))) (by decide)
  ⟨by decide, h.1, h.2.1⟩

/-! ## The pending-request slot -/

theorem permissionRequest_pending (s : Stub) (h : s.store (str "permissionRequest") ≠ none) :
    (permissionRequest s).1.isError = true ∧ (permissionRequest s).2.store = s.store ∧
      (s.fault = none → (permissionRequest s).1 =
        .Error "permission request allready pending. Error accessing state: %!s(<nil>)") := by
  unfold permissionRequest GetState Stub.fault Stub.step
  rcases h0 : s.faults s.calls with _ | e0 <;> simp [h0, h, Response.isError]

theorem permissionRequest_success (s : Stub) (h : (permissionRequest s).1 = .Success none) :
    (permissionRequest s).2.store (str "permissionRequest") = s.creator := by
  revert h
  unfold permissionRequest GetCreator GetState PutState Stub.fault Stub.step
  rcases h0 : s.faults s.calls with _ | e0 <;>
  rcases h1 : s.faults (s.calls + 1) with _ | e1 <;>
  rcases h2 : s.faults (s.calls + 1 + 1) with _ | e2 <;>
  simp [h0, h1, h2] <;> (repeat' split) <;> simp_all

/-- C6: single outstanding request. In a store whose PendingRequest slot holds a
value, `permissionRequest` by any caller returns an error (the already-pending
error whenever the read of the slot succeeds) and leaves the store unchanged.
Consequently, after a successful `permissionRequest` by a non-empty credential
`c`, a second `permissionRequest` by any caller on the resulting store fails and
the slot still holds `c`. -/
theorem permissionRequest_single_outstanding :
    (∀ s : Stub, s.function = str "permissionRequest" →
      s.store (str "permissionRequest") ≠ none →
        (Invoke s).1.isError = true ∧ (Invoke s).2.store = s.store ∧
        (s.fault = none → (Invoke s).1 =
          .Error "permission request allready pending. Error accessing state: %!s(<nil>)")) ∧
    (∀ (s s2 : Stub) (c : GoString), c ≠ [] → s.creator = some c →
      s.function = str "permissionRequest" → (Invoke s).1 = .Success none →
      s2.function = str "permissionRequest" → s2.store = (Invoke s).2.store →
        (Invoke s2).1.isError = true ∧ (Invoke s2).2.store = (Invoke s).2.store ∧
        (Invoke s2).2.store (str "permissionRequest") = some c) := by
  refine ⟨?_, ?_⟩
  · intro s hf hp
    rw [Invoke_permissionRequest s hf]
    exact permissionRequest_pending s hp
  · intro s s2 c _ hcr hf hok hf2 hst
    rw [Invoke_permissionRequest s hf] at hok hst ⊢
    have hslot : s2.store (str "permissionRequest") = some c := by
      rw [hst, permissionRequest_success s hok, hcr]
    rw [Invoke_permissionRequest s2 hf2]
    have h2 := permissionRequest_pending s2 (by rw [hslot]; simp)
    refine ⟨h2.1, ?_, ?_⟩
    · rw [h2.2.1, hst]
    · rw [h2.2.1, hslot]

theorem permissionRequest_single_outstanding_witness :
    ((txn pending (some bob) (str "permissionRequest") [] noFaults).store
        (str "permissionRequest") ≠ none ∧
      (Invoke (txn pending (some bob) (str "permissionRequest") [] noFaults)).1 =
        .Error "permission request allready pending. Error accessing state: %!s(<nil>)") ∧
    ((Invoke (txn seeded (some alice) (str "permissionRequest") [] noFaults)).1 =
        .Success none ∧
      (Invoke (txn pending (some bob) (str "permissionRequest") [] noFaults)).2.store
        (str "permissionRequest") = some alice) :=
  ⟨⟨by decide,
    (permissionRequest_single_outstanding.1
      (txn pending (some bob) (str "permissionRequest") [] noFaults) rfl (by decide)).2.2 rfl⟩,
   ⟨by decide,
    (permissionRequest_single_outstanding.2
      (txn seeded (some alice) (str "permissionRequest") [] noFaults)
      (txn pending (some bob) (str "permissionRequest") [] noFaults) alice (by decide) rfl rfl
      (by decide) rfl rfl).2.2⟩⟩

/-! ## Initialization -/

theorem Init_success_store (s : Stub) (h : (Init s).1 = .Success none) :
    (Init s).2.store = fun k =>
      if k = PathEscape (toGoString s.creator) then some (str "['read','write','admin']")
      else s.store k := by
  revert h
  unfold Init GetCreator GetState PutState Stub.fault Stub.step
  rcases h0 : s.faults s.calls with _ | e0 <;>
  rcases h1 : s.faults (s.calls + 1) with _ | e1 <;>
  rcases h2 : s.faults (s.calls + 1 + 1) with _ | e2 <;>
  simp [h0, h1, h2]

/-- C8: after a successful `Init` on an empty store by the deployer,
`checkPermission` for the deployer returns true for "read", "write" and "admin",
and for every credential whose bytes differ from the deployer's it returns false
for every label. -/
theorem Init_permissions (s : Stub) (hst : s.store = emptyStore)
    (hok : (Init s).1 = .Success none) :
    hasPermission (Init s).2.store s.creator (str "read") = true ∧
    hasPermission (Init s).2.store s.creator (str "write") = true ∧
    hasPermission (Init s).2.store s.creator (str "admin") = true ∧
    ∀ c : Bytes, toGoString c ≠ toGoString s.creator → ∀ l : GoString,
      hasPermission (Init s).2.store c l = false := by
  rw [Init_success_store s hok]
  refine ⟨?_, ?_, ?_, ?_⟩
  · simp only [hasPermission_eq, if_true]; decide
  · simp only [hasPermission_eq, if_true]; decide
  · simp only [hasPermission_eq, if_true]; decide
  · intro c hc l
    have hne : PathEscape (toGoString c) ≠ PathEscape (toGoString s.creator) :=
      fun he => hc (PathEscape_inj _ _ he)
    simp [hasPermission_eq, hne, hst, emptyStore]

theorem Init_permissions_witness :
    (Init (txn emptyStore (some deployer) [] [] noFaults)).1 = .Success none ∧
    hasPermission seeded (some deployer) (str "admin") = true ∧
    hasPermission seeded (some alice) (str "read") = false :=
  have h := Init_permissions (txn emptyStore (some deployer) [] [] noFaults) rfl (by decide)
  ⟨by decide, h.2.2.1, h.2.2.2 (some alice) (by decide) (str "read")⟩

/-! ## Private entries -/

/-- C4, counterexample: `bob` holds read and write; his `putPrivate` on the key
of his own identity succeeds, and his following `getPrivate` of that key is
refused with "Forbidden" instead of returning the value. -/
theorem roundtrip_own_identity_key :
    hasPermission grantedBob (some bob) (str "read") = true ∧
    hasPermission grantedBob (some bob) (str "write") = true ∧
    (Invoke (txn grantedBob (some bob) (str "putPrivate") [PathEscape bob, str "x"]
      noFaults)).1 = .Success none ∧
    (Invoke (txn
      (Invoke (txn grantedBob (some bob) (str "putPrivate") [PathEscape bob, str "x"]
        noFaults)).2.store
      (some bob) (str "getPrivate") [PathEscape bob] noFaults)).1 = .Error "Forbidden" := by
  decide

/-- C4, amended: round trip. For a caller holding read and write and every key
other than the caller's own identity key, when the stub calls do not fail
`putPrivate(k, v)` succeeds and a following `getPrivate(k)` by the same caller
succeeds and returns exactly `v`. -/
theorem put_get_roundtrip (st : GoString → Bytes) (c : Bytes) (k v : GoString)
    (rest : List GoString)
    (hr : hasPermission st c (str "read") = true)
    (hw : hasPermission st c (str "write") = true)
    (hk : k ≠ PathEscape (toGoString c)) :
    (Invoke (txn st c (str "putPrivate") (k :: v :: rest) noFaults)).1 = .Success none ∧
    (Invoke (txn (Invoke (txn st c (str "putPrivate") (k :: v :: rest) noFaults)).2.store
      c (str "getPrivate") [k] noFaults)).1 = .Success (some v) := by
  rw [hasPermission_eq] at hr hw
  have hk2 : ¬ PathEscape (toGoString c) = k := fun h => hk h.symm
  have hlen : ¬ (rest.length + 1 + 1 < 2) := by omega
  rw [Invoke_putPrivate _ rfl, Invoke_getPrivate _ rfl]
  simp [putPrivate, getPrivate, checkPermission, GetCreator, GetState, PutState, Stub.fault,
    Stub.step, txn, noFaults, hk2, hlen]
  simp_all

theorem put_get_roundtrip_witness :
    (Invoke (txn (Invoke (txn grantedBob (some bob) (str "putPrivate") [str "k", str "v"]
      noFaults)).2.store (some bob) (str "getPrivate") [str "k"] noFaults)).1 =
      .Success (some (str "v")) :=
  (put_get_roundtrip grantedBob (some bob) (str "k") (str "v") [] (by decide) (by decide)
    (by decide)).2

/-! ## Who can become admin -/

theorem Invoke_store_key (s : Stub) (k : GoString) (hp : k ≠ str "permissionRequest")
    (hl : k ≠ str "lastGrantedUser")
    (hput : s.function = str "putPrivate" → s.args.head? ≠ some k) :
    (Invoke s).2.store k = s.store k ∨
      (Invoke s).2.store k = some (str "['read','write']") ∨
      (Invoke s).2.store k = some (str "['read']") := by
  by_cases h1 : s.function = str "putPrivate"
  · rw [Invoke_putPrivate s h1]
    exact Or.inl (putPrivate_store s s.args k (hput h1))
  by_cases h2 : s.function = str "getPrivate"
  · rw [Invoke_getPrivate s h2, getPrivate_store]
    exact Or.inl rfl
  by_cases h3 : s.function = str "permissionRequest"
  · rw [Invoke_permissionRequest s h3]
    exact Or.inl (permissionRequest_store s k hp)
  by_cases h4 : s.function = str "addReadWritePermission"
  · rw [Invoke_addReadWritePermission s h4]
    rcases addReadWritePermission_store s k hp hl with h | h
    · exact Or.inl h
    · exact Or.inr (Or.inl h)
  by_cases h5 : s.function = str "addReadPermission"
  · rw [Invoke_addReadPermission s h5]
    rcases addReadPermission_store s k hp hl with h | h
    · exact Or.inl h
    · exact Or.inr (Or.inr h)
  rw [Invoke_unsupported s h1 h2 h3 h4 h5]
  exact Or.inl rfl

/-- C2, counterexample: `bob` holds write (and no admin); `alice` does not pass
the admin check; after `bob` calls `putPrivate` on the key of her identity with
the value "admin", she passes it. -/
theorem putPrivate_creates_admin :
    hasPermission grantedBob (some bob) (str "admin") = false ∧
    hasPermission grantedBob (some alice) (str "admin") = false ∧
    hasPermission
      (Invoke (txn grantedBob (some bob) (str "putPrivate") [PathEscape alice, str "admin"]
        noFaults)).2.store
      (some alice) (str "admin") = true := by
  decide

/-- C2, amended: for every stub state (store, caller, operation, arguments and
failure schedule) and every identity whose key is neither "permissionRequest"
nor "lastGrantedUser", an `Invoke` call that is not a `putPrivate` on the key of
that identity keeps a failing admin check failing. -/
theorem admin_not_created (s : Stub) (i : Bytes)
    (hp : PathEscape (toGoString i) ≠ str "permissionRequest")
    (hl : PathEscape (toGoString i) ≠ str "lastGrantedUser")
    (hput : s.function = str "putPrivate" → s.args.head? ≠ some (PathEscape (toGoString i)))
    (h : hasPermission s.store i (str "admin") = false) :
    hasPermission (Invoke s).2.store i (str "admin") = false := by
  rw [hasPermission_eq] at h ⊢
  rcases Invoke_store_key s (PathEscape (toGoString i)) hp hl hput with e | e | e
  · rw [e]; exact h
  · rw [e]; decide
  · rw [e]; decide

theorem admin_not_created_witness :
    hasPermission pending (some alice) (str "admin") = false ∧
    hasPermission
      (Invoke (txn pending (some deployer) (str "addReadWritePermission") [] noFaults)).2.store
      (some alice) (str "admin") = false :=
  ⟨by decide,
    admin_not_created (txn pending (some deployer) (str "addReadWritePermission") [] noFaults)
      (some alice) (by decide) (by decide) (fun h => absurd h (by decide)) (by decide)⟩

/-! ## The grant workflow -/

/-- C1: at the credential `alice`, which holds a byte that `url.PathEscape`
escapes: she has no admin permission and the slot is empty; her
`permissionRequest` succeeds and the `addReadWritePermission` of the admin
`deployer` succeeds; afterwards `checkPermission` for her returns false for
"read" and for "write", because the permission set was written under her raw
credential and not under her canonicalized identity. -/
theorem grant_written_under_raw_credential :
    alice ≠ [] ∧
    hasPermission seeded (some alice) (str "admin") = false ∧
    hasPermission seeded (some deployer) (str "admin") = true ∧
    seeded (str "permissionRequest") = none ∧
    (Invoke (txn seeded (some alice) (str "permissionRequest") [] noFaults)).1 =
      .Success none ∧
    (Invoke (txn pending (some deployer) (str "addReadWritePermission") [] noFaults)).1 =
      .Success none ∧
    hasPermission granted (some alice) (str "read") = false ∧
    hasPermission granted (some alice) (str "write") = false ∧
    granted alice = some (str "['read','write']") ∧
    PathEscape alice = str "alice%20smith" ∧
    granted (PathEscape alice) = none := by
  decide

/-- C3: at the store `seeded`, whose PendingRequest slot is absent, with the
admin `deployer` as caller: when the store accepts the write,
`addReadWritePermission` returns success, having written "['read','write']"
under the empty key and set an event with the empty name; when the store rejects
the write to the empty key, the error returned is the one of a failed put. -/
theorem grant_without_pending_request :
    seeded (str "permissionRequest") = none ∧
    hasPermission seeded (some deployer) (str "admin") = true ∧
    (Invoke (txn seeded (some deployer) (str "addReadWritePermission") [] noFaults)).1 =
      .Success none ∧
    (Invoke (txn seeded (some deployer) (str "addReadWritePermission") [] noFaults)).2.store []
      = some (str "['read','write']") ∧
    seeded [] = none ∧
    (Invoke (txn seeded (some deployer) (str "addReadWritePermission") [] noFaults)).2.event
      = some ([], { Payload := str "ReadWritePermission" }) ∧
    (Invoke (txn seeded (some deployer) (str "addReadWritePermission") [] rejectEmptyKey)).1 =
      .Error "put operation failed. Error updating state: key must not be an empty string" := by
  decide

/-! ## Postconditions of the private-entry operations -/

/-- C11: postcondition and frame of `putPrivate`. For a caller with write
permission and an argument list of at least two elements, when the stub calls do
not fail, `putPrivate` returns success with an empty payload, the resulting
store maps the key to the value and agrees with the previous store on every
other key. -/
theorem putPrivate_postcondition (s : Stub) (hf : s.function = str "putPrivate")
    (hw : hasPermission s.store s.creator (str "write") = true)
    (hlen : 2 ≤ s.args.length) (hnf : ∀ n, s.faults n = none) :
    (Invoke s).1 = .Success none ∧
    (Invoke s).2.store (s.args.getD 0 []) = some (s.args.getD 1 []) ∧
    ∀ k, k ≠ s.args.getD 0 [] → (Invoke s).2.store k = s.store k := by
  rw [Invoke_putPrivate s hf]
  rw [hasPermission_eq] at hw
  have hlen2 : ¬ (s.args.length < 2) := by omega
  simp [putPrivate, checkPermission, GetCreator, GetState, PutState, Stub.fault, Stub.step,
    hnf, hlen2]
  simp_all

theorem putPrivate_postcondition_witness :
    (Invoke (txn grantedBob (some bob) (str "putPrivate") [str "k", str "v"] noFaults)).1 =
      .Success none ∧
    (Invoke (txn grantedBob (some bob) (str "putPrivate") [str "k", str "v"] noFaults)).2.store
      (str "k") = some (str "v") :=
  have h := putPrivate_postcondition
    (txn grantedBob (some bob) (str "putPrivate") [str "k", str "v"] noFaults) rfl (by decide)
    (by decide) (fun _ => rfl)
  ⟨h.1, h.2.1⟩

/-- C15: `getPrivate` of a missing key is a success. For a caller with read
permission and a key absent from the store, when the stub calls do not fail,
`getPrivate` returns a success whose payload is nil, and the store is
unchanged. -/
theorem getPrivate_missing_key (s : Stub) (k : GoString) (rest : List GoString)
    (hf : s.function = str "getPrivate") (hargs : s.args = k :: rest)
    (hr : hasPermission s.store s.creator (str "read") = true)
    (hk : s.store k = none) (hnf : ∀ n, s.faults n = none) :
    (Invoke s).1 = .Success none ∧ (Invoke s).2.store = s.store := by
  rw [Invoke_getPrivate s hf]
  rw [hasPermission_eq] at hr
  simp [getPrivate, checkPermission, GetCreator, GetState, Stub.fault, Stub.step, hnf, hargs,
    hk]
  simp_all

theorem getPrivate_missing_key_witness :
    grantedBob (str "missing-key") = none ∧
    (Invoke (txn grantedBob (some bob) (str "getPrivate") [str "missing-key"] noFaults)).1 =
      .Success none :=
  ⟨by decide,
    (getPrivate_missing_key
      (txn grantedBob (some bob) (str "getPrivate") [str "missing-key"] noFaults)
      (str "missing-key") [] rfl rfl (by decide) (by decide) (fun _ => rfl)).1⟩

/-- C17: missing arguments are rejected without side effects. For a caller that
passes the write check, `putPrivate` with fewer than two arguments returns the
invalid-argument error of the put operation; for a caller that passes the read
check, `getPrivate` with no argument returns the one of the get operation; the
store and the event slot are unchanged in both cases. -/
theorem missing_arguments_rejected (s : Stub) :
    (s.function = str "putPrivate" → (checkPermission s (str "write")).1 = true →
      s.args.length < 2 →
        (Invoke s).1 = .Error "put operation must include two arguments, a key and value" ∧
        (Invoke s).2.store = s.store ∧ (Invoke s).2.event = s.event) ∧
    (s.function = str "getPrivate" → (checkPermission s (str "read")).1 = true →
      s.args.length < 1 →
        (Invoke s).1 = .Error "get operation must include one argument, a key" ∧
        (Invoke s).2.store = s.store ∧ (Invoke s).2.event = s.event) := by
  refine ⟨?_, ?_⟩
  · intro hf hc hlen
    rw [Invoke_putPrivate s hf]
    unfold putPrivate
    simp [hc, hlen, checkPermission_store, checkPermission_event]
  · intro hf hc hlen
    rw [Invoke_getPrivate s hf]
    unfold getPrivate
    simp only [Nat.lt_one_iff] at hlen
    simp [hc, hlen, checkPermission_store, checkPermission_event]

theorem missing_arguments_rejected_witness :
    (Invoke (txn grantedBob (some bob) (str "putPrivate") [str "k"] noFaults)).1 =
      .Error "put operation must include two arguments, a key and value" ∧
    (Invoke (txn grantedBob (some bob) (str "getPrivate") [] noFaults)).1 =
      .Error "get operation must include one argument, a key" :=
  ⟨((missing_arguments_rejected
      (txn grantedBob (some bob) (str "putPrivate") [str "k"] noFaults)).1 rfl (by decide)
      (by decide)).1,
   ((missing_arguments_rejected
      (txn grantedBob (some bob) (str "getPrivate") [] noFaults)).2 rfl (by decide)
      (by decide)).1⟩

/-- C14, counterexample: `bob` holds write; the PendingRequest slot of the store
is empty before his `putPrivate` on the key "permissionRequest" and holds his
value after it, and his `putPrivate` on the identity key of `deployer` replaces
the permission set stored there. -/
theorem putPrivate_mutates_reserved_keys :
    grantedBob (str "permissionRequest") = none ∧
    (Invoke (txn grantedBob (some bob) (str "putPrivate") [str "permissionRequest", str "x"]
      noFaults)).2.store (str "permissionRequest") = some (str "x") ∧
    grantedBob (PathEscape deployer) = some (str "['read','write','admin']") ∧
    (Invoke (txn grantedBob (some bob) (str "putPrivate") [PathEscape deployer, str "x"]
      noFaults)).2.store (PathEscape deployer) = some (str "x") := by
  decide

/-- C14, amended: `putPrivate` mutates no key other than the one given as its
first argument. For every stub state and every key that is not the first
argument, the PendingRequest slot and the identity keys included, the value
under that key is the same after a `putPrivate` call as before it. -/
theorem putPrivate_frame (s : Stub) (k : GoString) (hf : s.function = str "putPrivate")
    (hk : s.args.head? ≠ some k) : (Invoke s).2.store k = s.store k := by
  rw [Invoke_putPrivate s hf]
  exact putPrivate_store s s.args k hk

theorem putPrivate_frame_witness :
    (Invoke (txn pending (some deployer) (str "putPrivate") [str "k", str "v"]
      noFaults)).2.store (str "permissionRequest") = some alice :=
  (putPrivate_frame (txn pending (some deployer) (str "putPrivate") [str "k", str "v"] noFaults)
    (str "permissionRequest") rfl (by decide)).trans (by decide)

/-! ## Postconditions of the workflow operations -/

/-- C13: submitting a request is open to everyone and stores the credential
verbatim. For every store whose PendingRequest slot is absent and every caller
with a non-empty credential, whatever its permissions, when the stub calls do
not fail `permissionRequest` succeeds, the resulting store maps
"permissionRequest" to the raw credential bytes and agrees with the previous
store on every other key. -/
theorem permissionRequest_postcondition (s : Stub) (c : GoString)
    (hf : s.function = str "permissionRequest") (_hc : c ≠ []) (hcr : s.creator = some c)
    (hslot : s.store (str "permissionRequest") = none) (hnf : ∀ n, s.faults n = none) :
    (Invoke s).1 = .Success none ∧
    (Invoke s).2.store (str "permissionRequest") = some c ∧
    ∀ k, k ≠ str "permissionRequest" → (Invoke s).2.store k = s.store k := by
  rw [Invoke_permissionRequest s hf]
  simp [permissionRequest, GetCreator, GetState, PutState, Stub.fault, Stub.step, hnf, hslot,
    hcr]
  intro k hk
  simp [hk]

theorem permissionRequest_postcondition_witness :
    (Invoke (txn seeded (some alice) (str "permissionRequest") [] noFaults)).1 =
      .Success none ∧
    pending (str "permissionRequest") = some alice :=
  have h := permissionRequest_postcondition
    (txn seeded (some alice) (str "permissionRequest") [] noFaults) alice rfl (by decide) rfl
    (by decide) (fun _ => rfl)
  ⟨h.1, h.2.1⟩

/-- C19: unsupported operations soft-fail. For every operation name other than
the five supported ones, `Invoke` returns a success with the payload
"Unsupported operation" and leaves the stub state, hence the store and the event
slot, unchanged. -/
theorem unsupported_operation (s : Stub) (h1 : s.function ≠ str "putPrivate")
    (h2 : s.function ≠ str "getPrivate") (h3 : s.function ≠ str "permissionRequest")
    (h4 : s.function ≠ str "addReadWritePermission")
    (h5 : s.function ≠ str "addReadPermission") :
    (Invoke s).1 = .Success (some (str "Unsupported operation")) ∧ (Invoke s).2 = s ∧
      (Invoke s).2.store = s.store := by
  rw [Invoke_unsupported s h1 h2 h3 h4 h5]
  exact ⟨rfl, rfl, rfl⟩

theorem unsupported_operation_witness :
    (Invoke (txn seeded (some bob) (str "remove") [str "k"] noFaults)).1 =
      .Success (some (str "Unsupported operation")) :=
  (unsupported_operation (txn seeded (some bob) (str "remove") [str "k"] noFaults)
    (by decide) (by decide) (by decide) (by decide) (by decide)).1

/-- C20: on the encodings the program writes, the substring test agrees with
set membership. When the entry of the caller holds the value written by `Init`,
by `addReadWritePermission` or by `addReadPermission`, `checkPermission` returns
true for a label among read, write and admin exactly when the label belongs to
the set read, write, admin, respectively read, write, respectively read. -/
theorem substring_test_agrees_with_membership (st : GoString → Bytes) (c : Bytes)
    (l : GoString) (hl : l ∈ [str "read", str "write", str "admin"]) :
    (st (PathEscape (toGoString c)) = some (str "['read','write','admin']") →
      hasPermission st c l = decide (l ∈ [str "read", str "write", str "admin"])) ∧
    (st (PathEscape (toGoString c)) = some (str "['read','write']") →
      hasPermission st c l = decide (l ∈ [str "read", str "write"])) ∧
    (st (PathEscape (toGoString c)) = some (str "['read']") →
      hasPermission st c l = decide (l ∈ [str "read"])) := by
  simp only [List.mem_cons, List.mem_singleton, List.not_mem_nil, or_false] at hl
  refine ⟨?_, ?_, ?_⟩ <;> intro h <;> rw [hasPermission_eq, h] <;>
    rcases hl with rfl | rfl | rfl <;> decide

theorem substring_test_agrees_with_membership_witness :
    hasPermission grantedBob (some bob) (str "admin") =
      decide (str "admin" ∈ [str "read", str "write"]) :=
  (substring_test_agrees_with_membership grantedBob (some bob) (str "admin")
    (by decide)).2.1 (by decide)

/-! ## The two grant operations -/

theorem addReadWritePermission_success_faults (s : Stub)
    (hok : (addReadWritePermission s).1.isError = false) :
    (∀ n, n < 7 → s.faults (s.calls + n) = none) ∧
      hasPermission s.store s.creator (str "admin") = true := by
  revert hok
  rw [hasPermission_eq]
  unfold addReadWritePermission checkPermission GetCreator GetState PutState DelState SetEvent
    Stub.fault Stub.step
  rcases h0 : s.faults s.calls with _ | e0 <;>
  rcases h1 : s.faults (s.calls + 1) with _ | e1 <;>
  rcases h2 : s.faults (s.calls + 1 + 1) with _ | e2 <;>
  rcases h3 : s.faults (s.calls + 1 + 1 + 1) with _ | e3 <;>
  rcases h4 : s.faults (s.calls + 1 + 1 + 1 + 1) with _ | e4 <;>
  rcases h5 : s.faults (s.calls + 1 + 1 + 1 + 1 + 1) with _ | e5 <;>
  rcases h6 : s.faults (s.calls + 1 + 1 + 1 + 1 + 1 + 1) with _ | e6 <;>
  simp [h0, h1, h2, h3, h4, h5, h6] <;> (repeat' split) <;>
  simp_all [Response.isError]
  intro n hn
  interval_cases n <;> simp_all [Nat.add_assoc]

theorem addReadWritePermission_run (s : Stub)
    (hpre : ∀ n, n < 6 → s.faults (s.calls + n) = none)
    (hadm : hasPermission s.store s.creator (str "admin") = true) :
    addReadWritePermission s =
      match s.faults (s.calls + 6) with
      | some e => (.Error ("remove operation failed. Error updating state: " ++ e),
          { s with
            store := fun k =>
              if k = str "lastGrantedUser" then s.store (str "permissionRequest")
              else if k = toGoString (s.store (str "permissionRequest")) then
                some (str "['read','write']")
              else s.store k
            event := some (toGoString (s.store (str "permissionRequest")),
              { Payload := str "ReadWritePermission" })
            calls := s.calls + 7 })
      | none => (.Success none,
          { s with
            store := fun k =>
              if k = str "permissionRequest" then none
              else if k = str "lastGrantedUser" then s.store (str "permissionRequest")
              else if k = toGoString (s.store (str "permissionRequest")) then
                some (str "['read','write']")
              else s.store k
            event := some (toGoString (s.store (str "permissionRequest")),
              { Payload := str "ReadWritePermission" })
            calls := s.calls + 7 }) := by
  have h0 := hpre 0 (by omega)
  have h1 := hpre 1 (by omega)
  have h2 := hpre 2 (by omega)
  have h3 := hpre 3 (by omega)
  have h4 := hpre 4 (by omega)
  have h5 := hpre 5 (by omega)
  rw [hasPermission_eq] at hadm
  simp only [Nat.add_zero] at h0
  rcases h6 : s.faults (s.calls + 6) with _ | e <;>
  simp [addReadWritePermission, checkPermission, GetCreator, GetState, PutState, DelState,
    SetEvent, Stub.fault, Stub.step, h0, h1, h2, h3, h4, h5, h6, Nat.add_assoc] <;>
  simp_all

theorem addReadPermission_success_faults (s : Stub)
    (hok : (addReadPermission s).1.isError = false) :
    (∀ n, n < 7 → s.faults (s.calls + n) = none) ∧
      hasPermission s.store s.creator (str "admin") = true := by
  revert hok
  rw [hasPermission_eq]
  unfold addReadPermission checkPermission GetCreator GetState PutState DelState SetEvent
    Stub.fault Stub.step
  rcases h0 : s.faults s.calls with _ | e0 <;>
  rcases h1 : s.faults (s.calls + 1) with _ | e1 <;>
  rcases h2 : s.faults (s.calls + 1 + 1) with _ | e2 <;>
  rcases h3 : s.faults (s.calls + 1 + 1 + 1) with _ | e3 <;>
  rcases h4 : s.faults (s.calls + 1 + 1 + 1 + 1) with _ | e4 <;>
  rcases h5 : s.faults (s.calls + 1 + 1 + 1 + 1 + 1) with _ | e5 <;>
  rcases h6 : s.faults (s.calls + 1 + 1 + 1 + 1 + 1 + 1) with _ | e6 <;>
  simp [h0, h1, h2, h3, h4, h5, h6] <;> (repeat' split) <;>
  simp_all [Response.isError]
  intro n hn
  interval_cases n <;> simp_all [Nat.add_assoc]

theorem addReadPermission_run (s : Stub)
    (hpre : ∀ n, n < 6 → s.faults (s.calls + n) = none)
    (hadm : hasPermission s.store s.creator (str "admin") = true) :
    addReadPermission s =
      match s.faults (s.calls + 6) with
      | some e => (.Error ("remove operation failed. Error updating state: " ++ e),
          { s with
            store := fun k =>
              if k = str "lastGrantedUser" then s.store (str "permissionRequest")
              else if k = toGoString (s.store (str "permissionRequest")) then
                some (str "['read']")
              else s.store k
            event := some (toGoString (s.store (str "permissionRequest")),
              { Payload := str "ReadPermission" })
            calls := s.calls + 7 })
      | none => (.Success none,
          { s with
            store := fun k =>
              if k = str "permissionRequest" then none
              else if k = str "lastGrantedUser" then s.store (str "permissionRequest")
              else if k = toGoString (s.store (str "permissionRequest")) then
                some (str "['read']")
              else s.store k
            event := some (toGoString (s.store (str "permissionRequest")),
              { Payload := str "ReadPermission" })
            calls := s.calls + 7 }) := by
  have h0 := hpre 0 (by omega)
  have h1 := hpre 1 (by omega)
  have h2 := hpre 2 (by omega)
  have h3 := hpre 3 (by omega)
  have h4 := hpre 4 (by omega)
  have h5 := hpre 5 (by omega)
  rw [hasPermission_eq] at hadm
  simp only [Nat.add_zero] at h0
  rcases h6 : s.faults (s.calls + 6) with _ | e <;>
  simp [addReadPermission, checkPermission, GetCreator, GetState, PutState, DelState,
    SetEvent, Stub.fault, Stub.step, h0, h1, h2, h3, h4, h5, h6, Nat.add_assoc] <;>
  simp_all

theorem grant_responses_eq (s1 s2 : Stub) (hcr : s2.creator = s1.creator)
    (hst : s2.store = s1.store) (hfl : s2.faults = s1.faults) (hca : s2.calls = s1.calls) :
    (addReadWritePermission s1).1 = (addReadPermission s2).1 := by
  obtain ⟨cr, f1, a1, st, ev1, fl, n⟩ := s1
  obtain ⟨cr2, f2, a2, st2, ev2, fl2, n2⟩ := s2
  simp only at hcr hst hfl hca
  subst hcr hst hfl hca
  unfold addReadWritePermission addReadPermission checkPermission GetCreator GetState PutState
    DelState SetEvent Stub.fault Stub.step
  rcases h0 : fl2 n2 with _ | e0 <;>
  rcases h1 : fl2 (n2 + 1) with _ | e1 <;>
  rcases h2 : fl2 (n2 + 1 + 1) with _ | e2 <;>
  rcases h3 : fl2 (n2 + 1 + 1 + 1) with _ | e3 <;>
  rcases h4 : fl2 (n2 + 1 + 1 + 1 + 1) with _ | e4 <;>
  rcases h5 : fl2 (n2 + 1 + 1 + 1 + 1 + 1) with _ | e5 <;>
  rcases h6 : fl2 (n2 + 1 + 1 + 1 + 1 + 1 + 1) with _ | e6 <;>
  simp [h0, h1, h2, h3, h4, h5, h6] <;> (repeat' split) <;> simp_all

theorem lastGrantedUser_ne_permissionRequest :
    str "lastGrantedUser" ≠ str "permissionRequest" := by
  decide

/-- C12: closing the cycle. For every store whose PendingRequest slot holds
credential bytes `c`, after a successful `addReadWritePermission` or
`addReadPermission` the key "permissionRequest" is absent from the store and the
key "lastGrantedUser" holds exactly `c`. -/
theorem grant_closes_cycle (s : Stub) (c : List Byte)
    (hf : s.function = str "addReadWritePermission" ∨ s.function = str "addReadPermission")
    (hslot : s.store (str "permissionRequest") = some c)
    (hok : (Invoke s).1.isError = false) :
    (Invoke s).2.store (str "permissionRequest") = none ∧
    (Invoke s).2.store (str "lastGrantedUser") = some c := by
  rcases hf with hf | hf
  · rw [Invoke_addReadWritePermission s hf] at hok ⊢
    obtain ⟨hfl, hadm⟩ := addReadWritePermission_success_faults s hok
    rw [addReadWritePermission_run s (fun n hn => hfl n (by omega)) hadm, hfl 6 (by omega)]
    simp [hslot, lastGrantedUser_ne_permissionRequest]
  · rw [Invoke_addReadPermission s hf] at hok ⊢
    obtain ⟨hfl, hadm⟩ := addReadPermission_success_faults s hok
    rw [addReadPermission_run s (fun n hn => hfl n (by omega)) hadm, hfl 6 (by omega)]
    simp [hslot, lastGrantedUser_ne_permissionRequest]

theorem grant_closes_cycle_witness :
    pending (str "permissionRequest") = some alice ∧
    granted (str "permissionRequest") = none ∧
    granted (str "lastGrantedUser") = some alice :=
  ⟨by decide,
    grant_closes_cycle (txn pending (some deployer) (str "addReadWritePermission") [] noFaults)
      alice (Or.inl rfl) (by decide) (by decide)⟩

/-- C18: partial failure of a grant is surfaced. Whenever the `DelState` of a
grant operation, its seventh stub call, is scheduled to fail, the operation
returns an error. For an admin caller and a pending request `c`, when the six
calls before it succeed, the error is the one of the failed removal, although
"lastGrantedUser" already holds `c` and the key `c` already holds the granted
permission set. -/
theorem grant_partial_failure (s : Stub) (perms : GoString)
    (hf : (s.function = str "addReadWritePermission" ∧ perms = str "['read','write']") ∨
      (s.function = str "addReadPermission" ∧ perms = str "['read']")) :
    (s.faults (s.calls + 6) ≠ none → (Invoke s).1.isError = true) ∧
    (∀ (c : List Byte) (e : String),
      hasPermission s.store s.creator (str "admin") = true →
      s.store (str "permissionRequest") = some c →
      (∀ n, n < 6 → s.faults (s.calls + n) = none) →
      s.faults (s.calls + 6) = some e →
        (Invoke s).1 = .Error ("remove operation failed. Error updating state: " ++ e) ∧
        (Invoke s).2.store (str "lastGrantedUser") = some c ∧
        (c ≠ str "lastGrantedUser" → (Invoke s).2.store c = some perms)) := by
  rcases hf with ⟨hf, rfl⟩ | ⟨hf, rfl⟩
  · rw [Invoke_addReadWritePermission s hf]
    refine ⟨?_, ?_⟩
    · intro h6
      by_contra hne
      have hok : (addReadWritePermission s).1.isError = false := by simpa using hne
      exact h6 ((addReadWritePermission_success_faults s hok).1 6 (by omega))
    · intro c e hadm hslot hpre h6
      rw [addReadWritePermission_run s hpre hadm, h6]
      simp [hslot, toGoString]
      intro hc
      simp [hc]
  · rw [Invoke_addReadPermission s hf]
    refine ⟨?_, ?_⟩
    · intro h6
      by_contra hne
      have hok : (addReadPermission s).1.isError = false := by simpa using hne
      exact h6 ((addReadPermission_success_faults s hok).1 6 (by omega))
    · intro c e hadm hslot hpre h6
      rw [addReadPermission_run s hpre hadm, h6]
      simp [hslot, toGoString]
      intro hc
      simp [hc]

theorem grant_partial_failure_witness :
    (Invoke (txn pending (some deployer) (str "addReadWritePermission") [] deleteFails)).1 =
      .Error "remove operation failed. Error updating state: ledger unavailable" ∧
    (Invoke (txn pending (some deployer) (str "addReadWritePermission") [] deleteFails)).2.store
      (str "lastGrantedUser") = some alice ∧
    (Invoke (txn pending (some deployer) (str "addReadWritePermission") [] deleteFails)).2.store
      alice = some (str "['read','write']") :=
  have h := (grant_partial_failure
    (txn pending (some deployer) (str "addReadWritePermission") [] deleteFails)
    (str "['read','write']") (Or.inl ⟨rfl, rfl⟩)).2 alice "ledger unavailable" (by decide)
    (by decide) (by decide) rfl
  ⟨h.1, h.2.1, h.2.2 (by decide)⟩

/-- C16: `addReadPermission` is identical to `addReadWritePermission` except for
the granted set and the event payload. On two stubs that agree on the caller,
the store and the failure schedule, the two operations return the same response.
When they succeed, their resulting stores agree on every key other than the one
written for the requester; under that key, unless it is one of the reserved keys
that both operations overwrite afterwards, `addReadWritePermission` leaves
"['read','write']" and `addReadPermission` leaves "['read']"; and their events
have the same key and the payloads "ReadWritePermission" and "ReadPermission". -/
theorem grants_differ_only_in_value (s1 s2 : Stub)
    (hf1 : s1.function = str "addReadWritePermission")
    (hf2 : s2.function = str "addReadPermission")
    (hcr : s2.creator = s1.creator) (hst : s2.store = s1.store)
    (hfl : s2.faults = s1.faults) (hca : s2.calls = s1.calls) :
    (Invoke s1).1 = (Invoke s2).1 ∧
    ((Invoke s1).1.isError = false →
      (∀ k, k ≠ toGoString (s1.store (str "permissionRequest")) →
        (Invoke s1).2.store k = (Invoke s2).2.store k) ∧
      (∀ k, (Invoke s1).2.store k = (Invoke s2).2.store k ∨
        ((Invoke s1).2.store k = some (str "['read','write']") ∧
          (Invoke s2).2.store k = some (str "['read']"))) ∧
      (Invoke s1).2.event = some (toGoString (s1.store (str "permissionRequest")),
        { Payload := str "ReadWritePermission" }) ∧
      (Invoke s2).2.event = some (toGoString (s1.store (str "permissionRequest")),
        { Payload := str "ReadPermission" }) ∧
      (toGoString (s1.store (str "permissionRequest")) ≠ str "permissionRequest" →
        toGoString (s1.store (str "permissionRequest")) ≠ str "lastGrantedUser" →
          (Invoke s1).2.store (toGoString (s1.store (str "permissionRequest"))) =
            some (str "['read','write']") ∧
          (Invoke s2).2.store (toGoString (s1.store (str "permissionRequest"))) =
            some (str "['read']"))) := by
  rw [Invoke_addReadWritePermission s1 hf1, Invoke_addReadPermission s2 hf2]
  have hresp := grant_responses_eq s1 s2 hcr hst hfl hca
  refine ⟨hresp, fun hok => ?_⟩
  have hok2 : (addReadPermission s2).1.isError = false := hresp ▸ hok
  obtain ⟨hfl1, hadm1⟩ := addReadWritePermission_success_faults s1 hok
  obtain ⟨hfl2, hadm2⟩ := addReadPermission_success_faults s2 hok2
  rw [addReadWritePermission_run s1 (fun n hn => hfl1 n (by omega)) hadm1, hfl1 6 (by omega),
    addReadPermission_run s2 (fun n hn => hfl2 n (by omega)) hadm2, hfl2 6 (by omega)]
  refine ⟨?_, ?_, rfl, ?_, ?_⟩
  · intro k hk
    simp [hk, hst]
  · intro k
    by_cases h1 : k = str "permissionRequest"
    · simp [h1, hst]
    by_cases h2 : k = str "lastGrantedUser"
    · simp [h1, h2, hst]
    by_cases h3 : k = toGoString (s1.store (str "permissionRequest"))
    · right
      simp [h1, h2, ← h3, hst]
    · simp [h1, h2, h3, hst]
  · simp [hst]
  · intro hp hl
    simp [hp, hl, hst]

theorem grants_differ_only_in_value_witness :
    (Invoke (txn pending (some deployer) (str "addReadWritePermission") [] noFaults)).1 =
      (Invoke (txn pending (some deployer) (str "addReadPermission") [] noFaults)).1 ∧
    (Invoke (txn pending (some deployer) (str "addReadPermission") [] noFaults)).2.event =
      some (alice, { Payload := str "ReadPermission" }) ∧
    (Invoke (txn pending (some deployer) (str "addReadWritePermission") [] noFaults)).2.store
      alice = some (str "['read','write']") ∧
    (Invoke (txn pending (some deployer) (str "addReadPermission") [] noFaults)).2.store
      alice = some (str "['read']") :=
  have h := grants_differ_only_in_value
    (txn pending (some deployer) (str "addReadWritePermission") [] noFaults)
    (txn pending (some deployer) (str "addReadPermission") [] noFaults) rfl rfl rfl rfl rfl rfl
  have hs := h.2 (by decide)
  ⟨h.1, hs.2.2.2.1, hs.2.2.2.2 (by decide) (by decide)⟩

end MapChaincode
